import Mathlib

/-!
Shallow embedding of the CppReadline console core (src/src/Console.cpp):
tokenization, the command registry, the dispatcher, the script runner,
the reservation protocol and the two completion iterators, together with
theorems about the spec claims.
-/

/-- Whitespace predicate matching std::isspace in the default locale, as
used by istream extraction when Console::executeCommand and
Console::argumentIterator tokenize a line. -/
def isWs (c : Char) : Bool :=
  c == ' ' || c == '\t' || c == '\n' || c == '\r' ||
    c == Char.ofNat 11 || c == Char.ofNat 12

/-- One step of word grouping for tokenization: a whitespace character
closes the current word, any other character extends it. -/
def wordsAux (c : Char) (acc : List (List Char)) : List (List Char) :=
  if isWs c then [] :: acc
  else
    match acc with
    | [] => [[c]]
    | w :: ws => (c :: w) :: ws

/-- Tokenization performed by copying istream_iterator of std::string out of
an istringstream: the maximal runs of non-whitespace characters, in order. -/
def tokenize (s : String) : List String :=
  ((s.data.foldr wordsAux []).filter (fun w => !w.isEmpty)).map
    (fun w => String.mk w)

/-- Substring containment, the common meaning of C++
std::string::find(needle) != npos and of strstr(hay, needle). -/
def strContains (hay needle : String) : Bool :=
  hay.data.tails.any (fun t => needle.data.isPrefixOf t)

/-- Modelled from the spec: ReturnCode::Ok lives in the header Console.hpp,
which is not under src/; the spec fixes Ok = 0. -/
def ReturnCode.Ok : Int := 0

/-- Modelled from the spec: ReturnCode::Error, fixed to 1 by the spec
(section 6, stable literal values). -/
def ReturnCode.Error : Int := 1

/-- Modelled from the spec: ReturnCode::Quit, a distinct non-zero sentinel
(the header declares it as -1). -/
def ReturnCode.Quit : Int := -1

/-- Modelled from the spec: the filesystem-completion sentinel
Console::COMPLETE_FILE declared in the missing header; only its role as a
distinguished hint value matters to the core. -/
def COMPLETE_FILE : String := "#complete_file#"

/-- A registered command: Console::CommandFunction is a pair of the handler
and the argument-hint vector. -/
structure CommandEntry where
  handler : List String → Int
  hints : List String

/-- The per-instance command registry Impl::commands_, an unordered_map;
modelled as an association list whose order is the map's (unspecified but
stable) enumeration order. -/
abbrev Registry := List (String × CommandEntry)

/-- The registry lookup commands_.find(s). -/
def regFind : Registry → String → Option CommandEntry
  | [], _ => none
  | (k, v) :: rest, s => if s = k then some v else regFind rest s

/-- In-place replacement of the entry for key s, the effect of
unordered_map operator[] assignment on an existing key. -/
def replaceEntry (s : String) (f : CommandEntry) :
    String × CommandEntry → String × CommandEntry
  | (k, v) => if k = s then (s, f) else (k, v)

/-- Console::registerCommand, that is commands_[s] = f: unordered_map
operator[] replaces the mapped value in place when the key exists, and
inserts a fresh entry otherwise. -/
def registerCommand (m : Registry) (s : String) (f : CommandEntry) : Registry :=
  if (regFind m s).isSome then
    m.map (replaceEntry s f)
  else
    m ++ [(s, f)]

/-- Console::getRegisteredCommands: all keys in enumeration order. -/
def getRegisteredCommands (m : Registry) : List String :=
  m.map Prod.fst

/-- The diagnostic printed by Console::executeCommand when the first token
is not a registered command. -/
def notFoundMsg (c : String) : String :=
  "Command '" ++ c ++ "' not found."

/-- Console::executeCommand: the return code together with the diagnostics
the dispatcher itself prints to stdout (handler output is the handler's
own side effect and is not part of the dispatcher channel). -/
def executeCommand (m : Registry) (command : String) : Int × List String :=
  match tokenize command with
  | [] => (ReturnCode.Ok, [])
  | c :: rest =>
    match regFind m c with
    | some entry => (entry.handler (c :: rest), [])
    | none => (ReturnCode.Error, [notFoundMsg c])

/-- The run builtin handler from the Console constructor, parametrised by
the executeFile routine it delegates the filename to. -/
def runHandler (fileExec : String → Int) (input : List String) : Int :=
  if input.length < 2 then 1
  else fileExec (input.getD 1 "")

/-- The four builtin commands registered by the Console constructor, with
their hint vectors: help, run, quit, exit. -/
def builtinCommands (fileExec : String → Int) : Registry :=
  [("help", ⟨fun _ => ReturnCode.Ok, []⟩),
   ("run", ⟨runHandler fileExec, [COMPLETE_FILE]⟩),
   ("quit", ⟨fun _ => ReturnCode.Quit, []⟩),
   ("exit", ⟨fun _ => ReturnCode.Quit, []⟩)]

/-- The character command[0]: C++ std::string operator[] yields the null
character when the string is empty. -/
def firstChar (s : String) : Char :=
  s.data.headD (Char.ofNat 0)

/-- The line loop of Console::executeFile, parametrised by the dispatch
function; yields the echoed (counter, line) pairs in order together with
the final return code. -/
def executeFileLoop (exec : String → Int) : Nat → List String → List (Nat × String) × Int
  | _, [] => ([], ReturnCode.Ok)
  | counter, line :: rest =>
    if firstChar line = '#' then executeFileLoop exec counter rest
    else if exec line = 0 then
      ((counter, line) :: (executeFileLoop exec (counter + 1) rest).1,
        (executeFileLoop exec (counter + 1) rest).2)
    else
      ([(counter, line)], exec line)

/-- The non-comment lines of a script, the ones the runner echoes and
dispatches. -/
def executedLines (lines : List String) : List String :=
  lines.filter (fun l => !decide (firstChar l = '#'))

/-- Index of the first dispatched line whose result is not Ok; the list
length when every line succeeds. -/
def firstFailIdx (exec : String → Int) (ls : List String) : Nat :=
  ls.findIdx (fun l => !decide (exec l = 0))

/-- Process-wide reservation state: the engine's live history buffer, the
current console (by instance id) and every instance's saved
historyHandle (Impl::history_). -/
structure ProcState where
  engineLive : List String
  current : Option Nat
  consoles : Nat → Option (List String)

/-- The empty history snapshot captured once at process start
(the emptyHistory global). -/
def emptyHistory : List String := []

/-- Pointwise update of the per-instance saved handles. -/
def setHist (f : Nat → Option (List String)) (i : Nat) (v : List String) :
    Nat → Option (List String) :=
  fun k => if k = i then some v else f k

/-- Console::saveState: capture the live history into instance j's
historyHandle. -/
def saveState (s : ProcState) (j : Nat) : ProcState :=
  { s with consoles := setHist s.consoles j s.engineLive }

/-- Console::reserveConsole: no-op when already current, else
save-before-switch and restore this instance's saved history (or the empty
snapshot when it never held the engine). -/
def reserveConsole (s : ProcState) (i : Nat) : ProcState :=
  if s.current = some i then s
  else
    let s1 := match s.current with
      | none => s
      | some j => saveState s j
    { s1 with
        engineLive := (s1.consoles i).getD emptyHistory,
        current := some i }

/-- The readline add_history primitive: append a line to the live
history. -/
def addHistory (s : ProcState) (line : String) : ProcState :=
  { s with engineLive := s.engineLive ++ [line] }

/-- A fresh process: no current console, no saved handles, empty live
history. -/
def initState : ProcState :=
  { engineLive := [], current := none, consoles := fun _ => none }

/-- The hint-scanning loop of Console::argumentIterator, collapsed over
the successive readline calls (state = 0, 1, 2, ...): the full sequence
of hints it hands back, in order. The loop advances the iterator first,
then skips a hint already present in the line buffer, then returns the
hint when it contains the typed argument. -/
def argIterLoop (lineBuffer argName : String) : List String → List String
  | [] => []
  | h :: rest =>
    if strContains lineBuffer h then argIterLoop lineBuffer argName rest
    else if strContains h argName then h :: argIterLoop lineBuffer argName rest
    else argIterLoop lineBuffer argName rest

/-- Console::argumentIterator, collapsed over the successive calls: the
full sequence of matches for a given current console and line buffer.
Except.error models a thrown std::out_of_range from std::vector::at
(results.at(0) on a token-free buffer, params.at(0) on an empty hint
vector). -/
def argumentIterator (cur : Option Registry) (lineBuffer : String) :
    Except Unit (List String) :=
  match cur with
  | none => Except.ok []
  | some cmds =>
    match tokenize lineBuffer with
    | [] => Except.error ()
    | commandName :: restTokens =>
      let argName := restTokens.headD ""
      match regFind cmds commandName with
      | none => Except.ok []
      | some entry =>
        match entry.hints with
        | [] => Except.error ()
        | h0 :: hs =>
          if h0 = COMPLETE_FILE then Except.ok []
          else Except.ok (argIterLoop lineBuffer argName hs)

/-- Console::commandIterator, collapsed over the successive calls: the
registered names containing the typed text, in enumeration order. -/
def commandIterRun (text : String) : Registry → List String
  | [] => []
  | (name, _) :: rest =>
    if strContains name text then name :: commandIterRun text rest
    else commandIterRun text rest

/-- Command-name completion as seen from the engine callback: consults
currentConsole and produces no matches when no instance is current. -/
def commandIterator (cur : Option Registry) (text : String) : List String :=
  match cur with
  | none => []
  | some cmds => commandIterRun text cmds

/-- A handler-free sample entry with no hints, like the help builtin. -/
def demoEntry : CommandEntry :=
  ⟨fun _ => ReturnCode.Ok, []⟩

/-- A sample entry with ordinary hints, first slot not the sentinel. -/
def demoArgEntry : CommandEntry :=
  ⟨fun _ => ReturnCode.Ok, ["flagzero", "alpha", "beta"]⟩

/-- A sample registry holding one hint-carrying command. -/
def demoArgReg : Registry := [("cmd", demoArgEntry)]

/-- A sample registry with names help and exit. -/
def demoHelpExit : Registry := [("help", demoEntry), ("exit", demoEntry)]

/-- A sample registry with the single name quit. -/
def demoQuit : Registry := [("quit", demoEntry)]

/-! Helper lemmas. -/

theorem data_append_eq (s t : String) : (s ++ t).data = s.data ++ t.data := rfl

theorem any_tails_isPrefixOf (a n b : List Char) :
    ((a ++ (n ++ b)).tails.any fun t => n.isPrefixOf t) = true := by
  rw [List.any_eq_true]
  refine ⟨n ++ b, ?_, ?_⟩
  · rw [List.mem_tails]
    exact List.suffix_append a (n ++ b)
  · rw [List.isPrefixOf_iff_prefix]
    exact List.prefix_append n b

theorem strContains_notFoundMsg (c : String) :
    strContains (notFoundMsg c) c = true := by
  have hdata : (notFoundMsg c).data =
      "Command '".data ++ (c.data ++ "' not found.".data) := by
    rw [notFoundMsg, data_append_eq, data_append_eq, List.append_assoc]
  rw [strContains, hdata]
  exact any_tails_isPrefixOf _ _ _

theorem argIterLoop_eq_filter (lb an : String) (l : List String) :
    argIterLoop lb an l =
      l.filter (fun h => !strContains lb h && strContains h an) := by
  induction l with
  | nil => rfl
  | cons h rest ih =>
    rw [argIterLoop, List.filter_cons]
    cases hc : strContains lb h <;> cases hm : strContains h an <;>
      simp [hc, hm, ih]

theorem commandIterRun_eq_filter (text : String) (m : Registry) :
    commandIterRun text m =
      (getRegisteredCommands m).filter (fun n => strContains n text) := by
  induction m with
  | nil => rfl
  | cons p rest ih =>
    obtain ⟨name, e⟩ := p
    rw [commandIterRun, getRegisteredCommands, List.map_cons, List.filter_cons]
    cases hc : strContains name text <;> simp [hc, ih, getRegisteredCommands]

theorem regFind_replace_found (m : Registry) (s : String) (f : CommandEntry)
    (h : (regFind m s).isSome) :
    regFind (m.map (replaceEntry s f)) s = some f := by
  induction m with
  | nil => simp [regFind] at h
  | cons p rest ih =>
    obtain ⟨k, w⟩ := p
    by_cases hk : s = k
    · subst hk
      rw [List.map_cons, replaceEntry, if_pos rfl, regFind, if_pos rfl]
    · have hne : k ≠ s := fun hks => hk hks.symm
      rw [regFind, if_neg hk] at h
      rw [List.map_cons, replaceEntry, if_neg hne, regFind, if_neg hk]
      exact ih h

theorem regFind_append_absent (m : Registry) (s : String) (f : CommandEntry)
    (h : regFind m s = none) :
    regFind (m ++ [(s, f)]) s = some f := by
  induction m with
  | nil => simp [regFind]
  | cons p rest ih =>
    obtain ⟨k, w⟩ := p
    rw [regFind] at h
    by_cases hk : s = k
    · rw [if_pos hk] at h
      exact absurd h (by simp)
    · rw [if_neg hk] at h
      rw [List.cons_append, regFind, if_neg hk]
      exact ih h

theorem replace_absent_id (m : Registry) (s : String) (f : CommandEntry)
    (h : regFind m s = none) :
    m.map (replaceEntry s f) = m := by
  induction m with
  | nil => rfl
  | cons p rest ih =>
    obtain ⟨k, w⟩ := p
    rw [regFind] at h
    by_cases hk : s = k
    · rw [if_pos hk] at h
      exact absurd h (by simp)
    · rw [if_neg hk] at h
      have hne : k ≠ s := fun hks => hk hks.symm
      rw [List.map_cons, replaceEntry, if_neg hne, ih h]

theorem replace_replace (m : Registry) (s : String) (f g : CommandEntry) :
    (m.map (replaceEntry s f)).map (replaceEntry s g) =
      m.map (replaceEntry s g) := by
  induction m with
  | nil => rfl
  | cons p rest ih =>
    obtain ⟨k, w⟩ := p
    by_cases hk : k = s
    · subst hk
      have e1 : replaceEntry k f (k, w) = (k, f) := if_pos rfl
      have e2 : replaceEntry k g (k, f) = (k, g) := if_pos rfl
      have e3 : replaceEntry k g (k, w) = (k, g) := if_pos rfl
      rw [List.map_cons, List.map_cons, List.map_cons, e1, e2, e3, ih]
    · have e1 : replaceEntry s f (k, w) = (k, w) := if_neg hk
      have e2 : replaceEntry s g (k, w) = (k, w) := if_neg hk
      rw [List.map_cons, List.map_cons, List.map_cons, e1, e2, ih]

theorem regFind_replace_other (m : Registry) (s : String) (f : CommandEntry)
    (other : String) (h : other ≠ s) :
    regFind (m.map (replaceEntry s f)) other = regFind m other := by
  induction m with
  | nil => rfl
  | cons p rest ih =>
    obtain ⟨k, w⟩ := p
    by_cases hk : k = s
    · subst hk
      rw [List.map_cons, replaceEntry, if_pos rfl, regFind, if_neg h,
        regFind, if_neg h, ih]
    · rw [List.map_cons, replaceEntry, if_neg hk, regFind, regFind]
      by_cases ho : other = k
      · rw [if_pos ho, if_pos ho]
      · rw [if_neg ho, if_neg ho, ih]

theorem regFind_append_other (m : Registry) (s : String) (f : CommandEntry)
    (other : String) (h : other ≠ s) :
    regFind (m ++ [(s, f)]) other = regFind m other := by
  induction m with
  | nil => simp [regFind, h]
  | cons p rest ih =>
    obtain ⟨k, w⟩ := p
    rw [List.cons_append, regFind, regFind]
    by_cases ho : other = k
    · rw [if_pos ho, if_pos ho]
    · rw [if_neg ho, if_neg ho, ih]

/-! Claim theorems. -/

/-- Claim C8: registerCommand followed by a lookup of the same name yields
exactly the registered handler-and-hints entry; registering the same name
twice keeps only the latest entry; lookups of any other name are
untouched, and registration succeeds for every name with no
validation. -/
theorem register_overwrite_lookup (m : Registry) (s other : String)
    (f g : CommandEntry) (h : other ≠ s) :
    regFind (registerCommand m s f) s = some f ∧
    registerCommand (registerCommand m s f) s g = registerCommand m s g ∧
    regFind (registerCommand m s f) other = regFind m other := by
  refine ⟨?_, ?_, ?_⟩
  · cases hm : regFind m s with
    | none =>
      rw [registerCommand, hm]
      exact regFind_append_absent m s f hm
    | some v =>
      rw [registerCommand, hm]
      exact regFind_replace_found m s f (by rw [hm]; rfl)
  · cases hm : regFind m s with
    | none =>
      have hfig : registerCommand m s f = m ++ [(s, f)] := by
        rw [registerCommand, hm]
        rfl
      have hfound : regFind (m ++ [(s, f)]) s = some f :=
        regFind_append_absent m s f hm
      rw [hfig, registerCommand, hfound]
      show (m ++ [(s, f)]).map (replaceEntry s g) = registerCommand m s g
      rw [List.map_append, replace_absent_id m s g hm, registerCommand, hm]
      show m ++ [replaceEntry s g (s, f)] = m ++ [(s, g)]
      rw [show replaceEntry s g (s, f) = (s, g) from if_pos rfl]
    | some v =>
      have hsome : (regFind m s).isSome := by rw [hm]; rfl
      have hfig : registerCommand m s f = m.map (replaceEntry s f) := by
        rw [registerCommand, hm]
        rfl
      have hfound : regFind (m.map (replaceEntry s f)) s = some f :=
        regFind_replace_found m s f hsome
      rw [hfig, registerCommand, hfound, registerCommand, hm]
      show (m.map (replaceEntry s f)).map (replaceEntry s g) =
        m.map (replaceEntry s g)
      exact replace_replace m s f g
  · cases hm : regFind m s with
    | none =>
      rw [registerCommand, hm]
      exact regFind_append_other m s f other h
    | some v =>
      rw [registerCommand, hm]
      exact regFind_replace_other m s f other h

/-- Witness for C8 at a concrete registry and names. -/
theorem register_overwrite_lookup_witness :
    regFind (registerCommand [] "mycmd" demoEntry) "mycmd" = some demoEntry ∧
    registerCommand (registerCommand [] "mycmd" demoEntry) "mycmd" demoArgEntry =
      registerCommand [] "mycmd" demoArgEntry ∧
    regFind (registerCommand [] "mycmd" demoEntry) "help" = regFind [] "help" :=
  register_overwrite_lookup [] "mycmd" "help" demoEntry demoArgEntry
    (by decide)

/-- Claim C7: a raw line whose first token is not registered yields
ReturnCode::Error together with a not-found diagnostic containing that
token, and a line with zero tokens yields ReturnCode::Ok with no
diagnostic. -/
theorem dispatch_not_found_and_blank (m : Registry) (line c : String)
    (rest : List String) :
    (tokenize line = [] → executeCommand m line = (ReturnCode.Ok, [])) ∧
    (tokenize line = c :: rest → regFind m c = none →
      executeCommand m line = (ReturnCode.Error, [notFoundMsg c]) ∧
        strContains (notFoundMsg c) c = true) := by
  constructor
  · intro h
    simp only [executeCommand, h]
  · intro h habs
    refine ⟨?_, strContains_notFoundMsg c⟩
    simp only [executeCommand, h, habs]

/-- Witness for C7: the builtin registry, a blank line and an unregistered
name. -/
theorem dispatch_not_found_and_blank_witness :
    executeCommand (builtinCommands (fun _ => ReturnCode.Ok)) "" =
      (ReturnCode.Ok, []) ∧
    executeCommand (builtinCommands (fun _ => ReturnCode.Ok)) "frobnicate" =
      (ReturnCode.Error, [notFoundMsg "frobnicate"]) ∧
    strContains (notFoundMsg "frobnicate") "frobnicate" = true := by
  refine ⟨?_, ?_, ?_⟩
  · exact (dispatch_not_found_and_blank
      (builtinCommands (fun _ => ReturnCode.Ok)) "" "x" []).1 rfl
  · exact ((dispatch_not_found_and_blank
      (builtinCommands (fun _ => ReturnCode.Ok)) "frobnicate" "frobnicate"
      []).2 rfl rfl).1
  · exact ((dispatch_not_found_and_blank
      (builtinCommands (fun _ => ReturnCode.Ok)) "frobnicate" "frobnicate"
      []).2 rfl rfl).2

/-- Counterexample to C2 as stated: the usage code returned when run is
dispatched with a single token is exactly ReturnCode::Error (both are the
literal 1), not a code distinct from it. -/
theorem run_usage_code_equals_error :
    (executeCommand (builtinCommands (fun _ => ReturnCode.Ok)) "run").1 =
      ReturnCode.Error := rfl

/-- Claim C2 (amended): dispatching run with fewer than two tokens returns
the non-zero usage code 1 — which coincides with ReturnCode::Error rather
than being distinct from it — and attempts no file I/O: the outcome is
the same for every executeFile routine. -/
theorem run_usage_amended (f g : String → Int) (input : List String)
    (h : input.length < 2) :
    runHandler f input = 1 ∧ runHandler f input ≠ ReturnCode.Ok ∧
      runHandler f input = ReturnCode.Error ∧
      runHandler f input = runHandler g input := by
  rw [runHandler, if_pos h, runHandler, if_pos h]
  refine ⟨rfl, ?_, rfl, rfl⟩
  rw [ReturnCode.Ok]
  decide

/-- Witness for the amended C2 at the one-token input list. -/
theorem run_usage_amended_witness :
    runHandler (fun _ => (7 : Int)) ["run"] = 1 ∧
    runHandler (fun _ => (7 : Int)) ["run"] ≠ ReturnCode.Ok ∧
    runHandler (fun _ => (7 : Int)) ["run"] = ReturnCode.Error ∧
    runHandler (fun _ => (7 : Int)) ["run"] = runHandler (fun _ => (9 : Int)) ["run"] :=
  run_usage_amended (fun _ => 7) (fun _ => 9) ["run"] (by decide)

/-- Claim C5: command-name completion enumerates exactly the current
instance's registered names containing the typed text as a substring, one
per call in enumeration order; text "e" against registry {help, exit}
yields both names, against {quit} yields none; with no current instance
no matches are produced. -/
theorem command_completion_matches (cmds : Registry) (text : String) :
    commandIterator (some cmds) text =
      (getRegisteredCommands cmds).filter (fun n => strContains n text) ∧
    commandIterator (some demoHelpExit) "e" = ["help", "exit"] ∧
    commandIterator (some demoQuit) "e" = [] ∧
    commandIterator none text = [] :=
  ⟨commandIterRun_eq_filter text cmds, rfl, rfl, rfl⟩

/-- Claim C9: on a command registered with an empty hint vector (as the
builtins help, quit and exit are), argument completion evaluates
params.at(0) on an empty vector, which throws std::out_of_range instead
of failing gracefully with no matches. -/
theorem argument_completion_empty_hints_out_of_range :
    argumentIterator (some (builtinCommands (fun _ => ReturnCode.Ok)))
      "help x" = Except.error () := rfl

/-- Claim C3: for a registered command whose first hint is not the
filesystem sentinel, argument completion considers hints from the second
element of the hint list onward only, and over the successive calls
returns exactly those of them that contain the typed argument (the second
token of the line buffer) and do not already appear literally in the line
buffer, in order, then no more. -/
theorem argument_completion_hints (cmds : Registry) (lineBuffer cmd : String)
    (args : List String) (entry : CommandEntry) (h0 : String)
    (hs : List String)
    (htok : tokenize lineBuffer = cmd :: args)
    (hlook : regFind cmds cmd = some entry)
    (hh : entry.hints = h0 :: hs)
    (hsent : h0 ≠ COMPLETE_FILE) :
    argumentIterator (some cmds) lineBuffer =
      Except.ok ((entry.hints.drop 1).filter
        (fun h => !strContains lineBuffer h &&
          strContains h (args.headD ""))) := by
  simp only [argumentIterator, htok, hlook, hh, if_neg hsent,
    List.drop_succ_cons, List.drop_zero]
  rw [argIterLoop_eq_filter]

/-- Witness for C3: completing "cmd al" against hints
["flagzero", "alpha", "beta"] yields exactly ["alpha"]. -/
theorem argument_completion_hints_witness :
    argumentIterator (some demoArgReg) "cmd al" = Except.ok ["alpha"] := by
  have h := argument_completion_hints demoArgReg "cmd al" "cmd" ["al"]
    demoArgEntry "flagzero" ["alpha", "beta"] (by decide) rfl rfl (by decide)
  rw [h]
  rfl

/-- Claim C4: for a registered command whose first hint is the filesystem
sentinel COMPLETE_FILE, argument completion yields no matches whatever
the rest of the typed line is. -/
theorem argument_completion_file_sentinel (cmds : Registry)
    (lineBuffer cmd : String) (args : List String) (entry : CommandEntry)
    (hs : List String)
    (htok : tokenize lineBuffer = cmd :: args)
    (hlook : regFind cmds cmd = some entry)
    (hh : entry.hints = COMPLETE_FILE :: hs) :
    argumentIterator (some cmds) lineBuffer = Except.ok [] := by
  simp only [argumentIterator, htok, hlook, hh, if_pos rfl, if_true]

/-- Witness for C4: the builtin run command carries the sentinel as its
first hint and completes to nothing. -/
theorem argument_completion_file_sentinel_witness :
    argumentIterator (some (builtinCommands (fun _ => ReturnCode.Ok)))
      "run somefile" = Except.ok [] :=
  argument_completion_file_sentinel
    (builtinCommands (fun _ => ReturnCode.Ok)) "run somefile" "run"
    ["somefile"] ⟨runHandler (fun _ => ReturnCode.Ok), [COMPLETE_FILE]⟩ []
    (by decide) rfl rfl

/-- Claim C6: the script runner skips comment lines (first character '#')
without echoing or dispatching them, echoes every other line with a
consecutive sequence number starting at the initial counter, stops at the
first non-Ok dispatch result and returns it unchanged, and returns Ok at
end-of-file when every dispatched line yields Ok. -/
theorem script_runner_behavior (exec : String → Int) (c : Nat)
    (lines : List String) :
    executeFileLoop exec c lines =
      (((executedLines lines).take
          (firstFailIdx exec (executedLines lines) + 1)).enumFrom c,
        (((executedLines lines).get?
            (firstFailIdx exec (executedLines lines))).map exec).getD
          ReturnCode.Ok) := by
  induction lines generalizing c with
  | nil => rfl
  | cons line rest ih =>
    by_cases hcm : firstChar line = '#'
    · have hex : executedLines (line :: rest) = executedLines rest := by
        simp [executedLines, List.filter_cons, hcm]
      simp only [executeFileLoop, if_pos hcm, hex]
      exact ih c
    · have hex : executedLines (line :: rest) = line :: executedLines rest := by
        simp [executedLines, List.filter_cons, hcm]
      by_cases hok : exec line = 0
      · have hidx : firstFailIdx exec (line :: executedLines rest) =
            firstFailIdx exec (executedLines rest) + 1 := by
          simp [firstFailIdx, List.findIdx_cons, hok]
        simp only [executeFileLoop, if_neg hcm, if_pos hok, hex, hidx,
          List.take_succ_cons, List.enumFrom_cons, List.get?_cons_succ, ih]
      · have hidx : firstFailIdx exec (line :: executedLines rest) = 0 := by
          simp [firstFailIdx, List.findIdx_cons, hok]
        simp only [executeFileLoop, if_neg hcm, if_neg hok, hex, hidx,
          List.take_succ_cons, List.take_zero, List.enumFrom_cons,
          List.enumFrom_nil, List.get?_cons_zero]
        rfl

/-- Claim C10: an empty script line is not treated as a comment (its
command[0] is the null character, not '#'), is echoed with the current
sequence number, dispatches as a blank line yielding Ok, and processing
continues with the following lines. -/
theorem script_runner_empty_line (m : Registry) (c : Nat)
    (rest : List String) :
    (firstChar "" == '#') = false ∧
    executeCommand m "" = (ReturnCode.Ok, []) ∧
    executeFileLoop (fun l => (executeCommand m l).1) c ("" :: rest) =
      ((c, "") ::
          (executeFileLoop (fun l => (executeCommand m l).1) (c + 1) rest).1,
        (executeFileLoop (fun l => (executeCommand m l).1) (c + 1) rest).2) := by
  refine ⟨rfl, rfl, ?_⟩
  have h1 : ¬ firstChar "" = '#' := by decide
  have h2 : ((fun l => (executeCommand m l).1) "") = 0 := rfl
  simp only [executeFileLoop, if_neg h1, h2]
  rfl

/-- Claim C1: starting from a fresh process, after instance X is reserved
and records h1 and h2, instance Y is reserved and records h3, and X is
reserved again, the engine's live history is exactly [h1, h2] (and does
not contain h3 when h3 differs from both), while Y's saved historyHandle
holds exactly [h3]; moreover reserving the already-current instance
changes nothing. -/
theorem reservation_isolation (X Y : Nat) (h1 h2 h3 : String) (hXY : X ≠ Y)
    (hd1 : h3 ≠ h1) (hd2 : h3 ≠ h2) (t : ProcState) (j : Nat)
    (hcur : t.current = some j) :
    ((reserveConsole (addHistory (reserveConsole (addHistory (addHistory
        (reserveConsole initState X) h1) h2) Y) h3) X).engineLive =
        [h1, h2] ∧
      (reserveConsole (addHistory (reserveConsole (addHistory (addHistory
        (reserveConsole initState X) h1) h2) Y) h3) X).consoles Y =
        some [h3] ∧
      h3 ∉ (reserveConsole (addHistory (reserveConsole (addHistory
        (addHistory (reserveConsole initState X) h1) h2) Y) h3) X).engineLive) ∧
    reserveConsole t j = t := by
  have hYX : Y ≠ X := Ne.symm hXY
  constructor
  · have e1 : reserveConsole initState X =
        ⟨[], some X, fun _ => none⟩ := rfl
    have e2 : addHistory (addHistory (reserveConsole initState X) h1) h2 =
        ⟨[h1, h2], some X, fun _ => none⟩ := by
      rw [e1]
      rfl
    have e3 : reserveConsole (addHistory (addHistory
        (reserveConsole initState X) h1) h2) Y =
        ⟨[], some Y, setHist (fun _ => none) X [h1, h2]⟩ := by
      rw [e2, reserveConsole]
      rw [if_neg (fun hc => hXY (Option.some.inj hc))]
      show (⟨(setHist (fun _ => none) X [h1, h2] Y).getD emptyHistory,
        some Y, setHist (fun _ => none) X [h1, h2]⟩ : ProcState) = _
      rw [setHist, if_neg hYX]
      rfl
    have e4 : addHistory (reserveConsole (addHistory (addHistory
        (reserveConsole initState X) h1) h2) Y) h3 =
        ⟨[h3], some Y, setHist (fun _ => none) X [h1, h2]⟩ := by
      rw [e3]
      rfl
    have e5 : reserveConsole (addHistory (reserveConsole (addHistory
        (addHistory (reserveConsole initState X) h1) h2) Y) h3) X =
        ⟨[h1, h2], some X,
          setHist (setHist (fun _ => none) X [h1, h2]) Y [h3]⟩ := by
      rw [e4, reserveConsole]
      rw [if_neg (fun hc => hYX (Option.some.inj hc))]
      show (⟨(setHist (setHist (fun _ => none) X [h1, h2]) Y [h3] X).getD
          emptyHistory, some X,
        setHist (setHist (fun _ => none) X [h1, h2]) Y [h3]⟩ : ProcState) = _
      rw [setHist, if_neg hXY, setHist, if_pos rfl]
      rfl
    rw [e5]
    refine ⟨rfl, ?_, ?_⟩
    · show setHist (setHist (fun _ => none) X [h1, h2]) Y [h3] Y = some [h3]
      rw [setHist, if_pos rfl]
    · show h3 ∉ [h1, h2]
      simp [hd1, hd2]
  · rw [reserveConsole, if_pos hcur]

/-- Witness for C1: instances 0 and 1 with history entries a, b, c, plus a
no-op re-reservation of the current instance of a sample state. -/
theorem reservation_isolation_witness :
    ((reserveConsole (addHistory (reserveConsole (addHistory (addHistory
        (reserveConsole initState 0) "a") "b") 1) "c") 0).engineLive =
        ["a", "b"] ∧
      (reserveConsole (addHistory (reserveConsole (addHistory (addHistory
        (reserveConsole initState 0) "a") "b") 1) "c") 0).consoles 1 =
        some ["c"] ∧
      "c" ∉ (reserveConsole (addHistory (reserveConsole (addHistory
        (addHistory (reserveConsole initState 0) "a") "b") 1) "c")
        0).engineLive) ∧
    reserveConsole ⟨[], some 5, fun _ => none⟩ 5 =
      (⟨[], some 5, fun _ => none⟩ : ProcState) :=
  reservation_isolation 0 1 "a" "b" "c" (by decide) (by decide) (by decide)
    ⟨[], some 5, fun _ => none⟩ 5 rfl
